import Mathlib

set_option maxRecDepth 100000
set_option maxHeartbeats 1000000

/-!
Verification of the marker unification pipeline of `src/frontend/src/components/HazardMap.js`
(OceanGuard). The JavaScript functions `getCoordinateKey`, `createUnifiedMarkerData` and the
`pinsWithin` filter are embedded shallowly:

* JS numbers are modelled as exact rationals (`ℚ`); raw record fields that may be numbers,
  numeric strings, unparseable strings, or null/undefined are modelled by `JSVal`.
* `Number.prototype.toFixed` is modelled by `jsToFixed` following the ECMAScript algorithm
  over the real value (sign extracted first, then the magnitude is rounded to the nearest
  multiple of 10^-p with ties away from zero, rendered with a sign prefix).
* The JS `Map` (which preserves insertion order, and on `set` of an existing key keeps the
  entry in its original position) is modelled by an association list with `mapHas`/`mapSet`.
* `Array.prototype.sort` with comparator `(a, b) => b.priority - a.priority` is a stable
  descending sort (stability mandated by ECMAScript); it is modelled by Mathlib's stable
  `List.insertionSort` with the total preorder `markerGE`.
* `Date.now()` is passed in as the explicit parameter `now : ℤ` (epoch milliseconds);
  `new Date(report.timestamp)` is modelled by the field `timestamp : Option ℤ`, `none`
  standing for an invalid date (whose comparisons are all false, as NaN comparisons are).
-/

/-- A raw JavaScript value appearing in a coordinate field of an upstream record:
a number, a string that `parseFloat` parses to a rational value, a string on which
`parseFloat` yields `NaN`, or `null`/`undefined`. -/
inductive JSVal where
  | null : JSVal
  | num (q : ℚ) : JSVal
  | numStr (q : ℚ) : JSVal
  | nanStr : JSVal
deriving DecidableEq

/-- `parseFloat` on a raw field: numbers and numeric strings yield their value,
`null`/`undefined` and unparseable strings yield `NaN` (modelled as `none`). -/
def parseFloat : JSVal → Option ℚ
  | JSVal.null => none
  | JSVal.num q => some q
  | JSVal.numStr q => some q
  | JSVal.nanStr => none

/-- JS truthiness of a raw value: `null`/`undefined` are falsy, the number 0 is falsy,
other numbers are truthy; the (non-empty) strings modelled here are truthy. -/
def jsTruthy : JSVal → Bool
  | JSVal.null => false
  | JSVal.num q => decide (q ≠ 0)
  | JSVal.numStr _ => true
  | JSVal.nanStr => true

/-- Numeric coercion of a stored coordinate value when handed to the map layer
(markers only ever hold numbers or numeric strings in their coordinate slots). -/
def jsToNumber : JSVal → ℚ
  | JSVal.null => 0
  | JSVal.num q => q
  | JSVal.numStr q => q
  | JSVal.nanStr => 0

/-- `x || d` on an optional numeric field (JS logical OR: `0`, `null` and `undefined`
all select the default). -/
def jsOr : Option ℚ → ℚ → ℚ
  | some c, d => if c = 0 then d else c
  | none, d => d

/-- A hazard-event record as consumed by `createUnifiedMarkerData` (the fields the
function reads: `centroid_lat`, `centroid_lon`, `confidence`; `id` identifies the record). -/
structure HazardEvent where
  id : ℕ
  centroid_lat : JSVal
  centroid_lon : JSVal
  confidence : Option ℚ
deriving DecidableEq

/-- A user-report record as consumed by `createUnifiedMarkerData` (fields read:
`lat`, `lon`, `isUserSubmission`, `confidence`, `timestamp`). The `timestamp` field is
the value of `new Date(report.timestamp).getTime()`, `none` when the date is invalid. -/
structure UserReport where
  id : ℕ
  lat : JSVal
  lon : JSVal
  isUserSubmission : Bool
  confidence : Option ℚ
  timestamp : Option ℤ
deriving DecidableEq

/-- The originating record referenced by a unified marker (`data` field). -/
inductive SourceData where
  | hazard (e : HazardEvent) : SourceData
  | report (r : UserReport) : SourceData
deriving DecidableEq

/-- Identifier of the record behind a marker. -/
def sourceId : SourceData → ℕ
  | SourceData.hazard e => e.id
  | SourceData.report r => r.id

/-- A unified marker, as built by `createUnifiedMarkerData`. The `lat`/`lon` slots hold
raw JS values because the override branch of the source stores `report.lat`/`report.lon`
unparsed, while every other branch stores the parsed numbers. -/
structure UnifiedMarker where
  type : String
  lat : JSVal
  lon : JSVal
  data : SourceData
  priority : ℕ
  confidence : ℚ
deriving DecidableEq

/-- One decimal digit as a character. -/
def digitChar : ℕ → Char
  | 0 => '0'
  | 1 => '1'
  | 2 => '2'
  | 3 => '3'
  | 4 => '4'
  | 5 => '5'
  | 6 => '6'
  | 7 => '7'
  | 8 => '8'
  | _ => '9'

/-- Base-10 digit characters of `n`, most significant first; fuel-driven so that it
reduces structurally (a fuel of `n` always suffices). -/
def natToDigitsAux : ℕ → ℕ → List Char
  | 0, _ => []
  | fuel + 1, n => if n = 0 then [] else natToDigitsAux fuel (n / 10) ++ [digitChar (n % 10)]

/-- Decimal rendering of a natural number, as JS renders the integral part of a fixed
notation number. -/
def natToDigits (n : ℕ) : String :=
  if n = 0 then "0" else String.mk (natToDigitsAux n n)

/-- Left-pad a digit string with zeros to width `w`. -/
def padLeft (s : String) (w : ℕ) : String :=
  String.mk (List.replicate (w - s.length) '0') ++ s

/-- `Number.prototype.toFixed(precision)` on the exact value `x`: the sign is rendered
first, the magnitude is rounded to the nearest multiple of `10 ^ (-precision)` with ties
away from zero, and the result is printed with exactly `precision` fractional digits.
The rounded magnitude `⌊|x| * 10 ^ precision + 1 / 2⌋` is computed on the numerator and
denominator directly: with `|x| = x.num.natAbs / x.den` it equals
`(2 * x.num.natAbs * 10 ^ precision + x.den) / (2 * x.den)` in natural division.
`jsToFixedDigits` renders a rounded magnitude with exactly `precision` fractional
digits; `jsToFixed` prepends the sign. -/
def jsToFixedDigits (scaled precision : ℕ) : String :=
  if precision = 0 then
    natToDigits scaled
  else
    natToDigits (scaled / 10 ^ precision) ++ "." ++
      padLeft (natToDigits (scaled % 10 ^ precision)) precision

def jsToFixed (x : ℚ) (precision : ℕ) : String :=
  (if x < 0 then "-" else "") ++
    jsToFixedDigits ((2 * x.num.natAbs * 10 ^ precision + x.den) / (2 * x.den)) precision

/-- `getCoordinateKey(lat, lon, precision = 3)`:
`${lat.toFixed(precision)}_${lon.toFixed(precision)}`. -/
def getCoordinateKey (lat lon : ℚ) (precision : ℕ := 3) : String :=
  jsToFixed lat precision ++ "_" ++ jsToFixed lon precision

/-- The coordinate validation both loops of `createUnifiedMarkerData` perform:
`parseFloat` each field, then reject when
`!lat || !lon || isNaN(lat) || isNaN(lon) || lat < -90 || lat > 90 || lon < -180 || lon > 180`
(a parsed value of exactly `0` is falsy and hence rejected). -/
def validateCoords (rawLat rawLon : JSVal) : Option (ℚ × ℚ) :=
  match parseFloat rawLat, parseFloat rawLon with
  | some la, some lo =>
      if la = 0 ∨ lo = 0 ∨ la < -90 ∨ la > 90 ∨ lo < -180 ∨ lo > 180 then none
      else some (la, lo)
  | _, _ => none

/-- The marker inserted for a hazard event in an unoccupied cell. -/
def hazardMarker (event : HazardEvent) (la lo : ℚ) : UnifiedMarker :=
  { type := "hazard_event", lat := JSVal.num la, lon := JSVal.num lo,
    data := SourceData.hazard event, priority := 10,
    confidence := jsOr event.confidence 0.5 }

/-- The marker inserted for a user report in an unoccupied cell. -/
def reportMarker (report : UserReport) (la lo : ℚ) : UnifiedMarker :=
  { type := "user_report", lat := JSVal.num la, lon := JSVal.num lo,
    data := SourceData.report report,
    priority := if report.isUserSubmission then 8 else 5,
    confidence := jsOr report.confidence 0.3 }

/-- The marker that replaces a co-located marker for a recent own submission; note the
source stores the raw `report.lat` / `report.lon` here, not the parsed values. -/
def overrideMarker (report : UserReport) : UnifiedMarker :=
  { type := "user_report", lat := report.lat, lon := report.lon,
    data := SourceData.report report, priority := 9,
    confidence := jsOr report.confidence 0.3 }

/-- `reportTime > thirtyMinutesAgo` where `thirtyMinutesAgo = Date.now() - 30 * 60 * 1000`;
an invalid date (`none`, i.e. NaN) compares false. -/
def overrideRecent (timestamp : Option ℤ) (now : ℤ) : Bool :=
  match timestamp with
  | some t => decide (now - 30 * 60 * 1000 < t)
  | none => false

/-- The `coordinateGroups` JS `Map`, as an insertion-ordered association list. -/
abbrev GroupMap : Type := List (String × UnifiedMarker)

/-- `Map.prototype.has`. -/
def mapHas (k : String) (l : GroupMap) : Bool :=
  l.any (fun p => p.1 = k)

/-- `Map.prototype.set`: updating an existing key keeps the entry at its original
position; a new key is appended at the end. -/
def mapSet (k : String) (v : UnifiedMarker) : GroupMap → GroupMap
  | [] => [(k, v)]
  | (k', v') :: rest => if k' = k then (k, v) :: rest else (k', v') :: mapSet k v rest

/-- The body of the first loop of `createUnifiedMarkerData`: validate the hazard event's
coordinates (skip on failure), compute the grid key, and insert with priority 10 only if
the cell is unoccupied (first writer wins). -/
def processHazardEvent (groups : GroupMap) (event : HazardEvent) : GroupMap :=
  match validateCoords event.centroid_lat event.centroid_lon with
  | none => groups
  | some (la, lo) =>
      let key := getCoordinateKey la lo 3
      if mapHas key groups then groups
      else mapSet key (hazardMarker event la lo) groups

/-- The body of the second loop of `createUnifiedMarkerData`: validate the report's
coordinates (skip on failure), compute the grid key; insert when the cell is unoccupied,
otherwise replace the occupant only for an own submission whose timestamp is within the
last 30 minutes. -/
def processUserReport (now : ℤ) (groups : GroupMap) (report : UserReport) : GroupMap :=
  match validateCoords report.lat report.lon with
  | none => groups
  | some (la, lo) =>
      let key := getCoordinateKey la lo 3
      if !mapHas key groups then
        mapSet key (reportMarker report la lo) groups
      else if report.isUserSubmission && overrideRecent report.timestamp now then
        mapSet key (overrideMarker report) groups
      else groups

/-- The state of `coordinateGroups` after both loops. -/
def unifiedGroups (hazardEvents : List HazardEvent) (userReports : List UserReport)
    (now : ℤ) : GroupMap :=
  userReports.foldl (processUserReport now) (hazardEvents.foldl processHazardEvent [])

/-- The descending-priority preorder of the sort comparator
`(a, b) => b.priority - a.priority`. -/
def markerGE (a b : UnifiedMarker) : Prop :=
  b.priority ≤ a.priority

instance : DecidableRel markerGE :=
  fun a b => Nat.decLe b.priority a.priority

instance : IsTotal UnifiedMarker markerGE :=
  ⟨fun a b => Nat.le_total b.priority a.priority⟩

instance : IsTrans UnifiedMarker markerGE :=
  ⟨fun _ _ _ hab hbc => Nat.le_trans hbc hab⟩

/-- `createUnifiedMarkerData(hazardEvents, userReports)`: run both loops, collect the
map's values in insertion order, stable-sort descending by priority, truncate to 50. -/
def createUnifiedMarkerData (hazardEvents : List HazardEvent)
    (userReports : List UserReport) (now : ℤ) : List UnifiedMarker :=
  (List.insertionSort markerGE
    ((unifiedGroups hazardEvents userReports now).map Prod.snd)).take 50

/-- The `pinsWithin` filter: keep the markers whose coordinates are truthy and whose
distance to the current center is at most the selected radius. The geodesic distance
computation `centerLL.distanceTo` belongs to the external map library (Leaflet, a
great-circle distance) and is abstracted as the parameter `dist`. -/
def pinsWithin (dist : ℚ → ℚ → ℚ → ℚ → ℚ) (centerLat centerLon radius : ℚ)
    (markers : List UnifiedMarker) : List UnifiedMarker :=
  markers.filter (fun m =>
    jsTruthy m.lat && jsTruthy m.lon &&
      decide (dist centerLat centerLon (jsToNumber m.lat) (jsToNumber m.lon) ≤ radius))

/-- The grid key a marker occupies at the configured 3-decimal precision (its stored
coordinates parsed back, as the source's keying parses them). -/
def markerKey (m : UnifiedMarker) : String :=
  match parseFloat m.lat, parseFloat m.lon with
  | some la, some lo => getCoordinateKey la lo 3
  | _, _ => ""

/-- The value a coordinate rounds to at `p` decimal digits (the rounding `toFixed`
performs: the magnitude is rounded half away from zero), represented as a signed
integer in units of `10 ^ (-p)`. -/
def roundedAt (p : ℕ) (x : ℚ) : ℤ :=
  (if x < 0 then -1 else 1) *
    (((2 * x.num.natAbs * 10 ^ p + x.den) / (2 * x.den) : ℕ) : ℤ)

/-! ### Basic lemmas about validation and the grouping map -/

theorem validateCoords_parse {a b : JSVal} {la lo : ℚ}
    (h : validateCoords a b = some (la, lo)) :
    parseFloat a = some la ∧ parseFloat b = some lo := by
  unfold validateCoords at h
  cases hpa : parseFloat a <;> cases hpb : parseFloat b <;> simp [hpa, hpb] at h
  exact ⟨by rw [h.2.1], by rw [h.2.2]⟩

theorem validateCoords_zero {a b : JSVal}
    (h : parseFloat a = some 0 ∨ parseFloat b = some 0) :
    validateCoords a b = none := by
  unfold validateCoords
  cases hpa : parseFloat a <;> cases hpb : parseFloat b <;> try rfl
  rcases h with h | h
  · rw [hpa] at h
    cases h
    simp
  · rw [hpb] at h
    cases h
    simp

theorem mapHas_false_iff {k : String} {l : GroupMap} :
    mapHas k l = false ↔ ∀ p ∈ l, p.1 ≠ k := by
  unfold mapHas
  simp

theorem mapSet_of_not_has {k : String} {v : UnifiedMarker} {l : GroupMap}
    (h : mapHas k l = false) : mapSet k v l = l ++ [(k, v)] := by
  induction l with
  | nil => rfl
  | cons p rest ih =>
      have hp : p.1 ≠ k := (mapHas_false_iff.mp h) p (List.mem_cons_self p rest)
      have hrest : mapHas k rest = false := by
        rw [mapHas_false_iff]
        intro q hq
        exact (mapHas_false_iff.mp h) q (List.mem_cons_of_mem p hq)
      cases p with
      | mk k' v' =>
          simp only [mapSet]
          rw [if_neg hp, ih hrest]
          rfl

theorem keys_mapSet_of_has {k : String} {v : UnifiedMarker} {l : GroupMap}
    (h : mapHas k l = true) :
    (mapSet k v l).map Prod.fst = l.map Prod.fst := by
  induction l with
  | nil => simp [mapHas] at h
  | cons p rest ih =>
      cases p with
      | mk k' v' =>
          simp only [mapSet]
          by_cases hk : k' = k
          · rw [if_pos hk]
            simp [hk]
          · rw [if_neg hk]
            have hrest : mapHas k rest = true := by
              unfold mapHas at h ⊢
              simp only [List.any_cons] at h
              rcases Bool.or_eq_true_iff.mp h with h1 | h1
              · exact absurd (by simpa using h1) hk
              · exact h1
            simp [ih hrest]

theorem mem_mapSet {q : String × UnifiedMarker} {k : String} {v : UnifiedMarker}
    {l : GroupMap} (h : q ∈ mapSet k v l) : q = (k, v) ∨ q ∈ l := by
  induction l with
  | nil =>
      simp only [mapSet] at h
      simp at h
      exact Or.inl h
  | cons p rest ih =>
      cases p with
      | mk k' v' =>
          simp only [mapSet] at h
          split at h
          · rcases List.mem_cons.mp h with h1 | h1
            · exact Or.inl h1
            · exact Or.inr (List.mem_cons_of_mem _ h1)
          · rcases List.mem_cons.mp h with h1 | h1
            · exact Or.inr (h1 ▸ List.mem_cons_self _ _)
            · rcases ih h1 with h2 | h2
              · exact Or.inl h2
              · exact Or.inr (List.mem_cons_of_mem _ h2)

/-! ### C5: zero coordinates are rejected -/

/-- C5: coordinate validation rejects a record whose parsed latitude or longitude is
exactly 0 (zero is falsy and treated as an absence sentinel), so a hazard event or user
report located exactly on the equator or prime meridian is skipped and contributes no
unified marker. -/
theorem zero_coordinate_rejected (groups : GroupMap) (now : ℤ)
    (e : HazardEvent) (r : UserReport) :
    ((parseFloat e.centroid_lat = some 0 ∨ parseFloat e.centroid_lon = some 0) →
        processHazardEvent groups e = groups)
  ∧ ((parseFloat r.lat = some 0 ∨ parseFloat r.lon = some 0) →
        processUserReport now groups r = groups)
  ∧ ((parseFloat e.centroid_lat = some 0 ∨ parseFloat e.centroid_lon = some 0) →
     (parseFloat r.lat = some 0 ∨ parseFloat r.lon = some 0) →
        createUnifiedMarkerData [e] [r] now = []) := by
  refine ⟨fun h => ?_, fun h => ?_, fun he hr => ?_⟩
  · simp [processHazardEvent, validateCoords_zero h]
  · simp [processUserReport, validateCoords_zero h]
  · simp [createUnifiedMarkerData, unifiedGroups, processHazardEvent, processUserReport,
      validateCoords_zero he, validateCoords_zero hr]

/-- Witness for C5: a hazard event on the equator and a user report on the prime
meridian are both dropped. -/
theorem zero_coordinate_rejected_witness :
    processHazardEvent []
      { id := 0, centroid_lat := JSVal.num 0, centroid_lon := JSVal.num 80,
        confidence := none } = []
  ∧ createUnifiedMarkerData
      [{ id := 0, centroid_lat := JSVal.num 0, centroid_lon := JSVal.num 80,
         confidence := none }]
      [{ id := 1, lat := JSVal.num 13, lon := JSVal.num 0, isUserSubmission := true,
         confidence := none, timestamp := some 0 }] 0 = [] :=
  ⟨(zero_coordinate_rejected [] 0
      { id := 0, centroid_lat := JSVal.num 0, centroid_lon := JSVal.num 80,
        confidence := none }
      { id := 1, lat := JSVal.num 13, lon := JSVal.num 0, isUserSubmission := true,
        confidence := none, timestamp := some 0 }).1 (Or.inl rfl),
   (zero_coordinate_rejected [] 0
      { id := 0, centroid_lat := JSVal.num 0, centroid_lon := JSVal.num 80,
        confidence := none }
      { id := 1, lat := JSVal.num 13, lon := JSVal.num 0, isUserSubmission := true,
        confidence := none, timestamp := some 0 }).2.2 (Or.inl rfl) (Or.inr rfl)⟩

/-! ### C2: the override window -/

/-- C2: when a user report falls in an occupied grid cell, the occupant is replaced
(with a priority-9 marker, in the same slot) exactly when the report is the user's own
submission and its timestamp is within the last 30 minutes of processing time; an own
report timestamped `now` supersedes the co-located marker, the same report timestamped
31 minutes ago does not, and a non-own report never does. -/
theorem override_window (now : ℤ) (groups : GroupMap) (r : UserReport) (la lo : ℚ)
    (hv : validateCoords r.lat r.lon = some (la, lo))
    (hocc : mapHas (getCoordinateKey la lo 3) groups = true) :
    (r.isUserSubmission = true → overrideRecent r.timestamp now = true →
        processUserReport now groups r =
          mapSet (getCoordinateKey la lo 3) (overrideMarker r) groups)
  ∧ ((r.isUserSubmission = false ∨ overrideRecent r.timestamp now = false) →
        processUserReport now groups r = groups)
  ∧ (∀ t : ℤ, r.timestamp = some t →
        (overrideRecent r.timestamp now = true ↔ now - 30 * 60 * 1000 < t))
  ∧ (overrideMarker r).priority = 9
  ∧ (r.timestamp = some now → r.isUserSubmission = true →
        processUserReport now groups r =
          mapSet (getCoordinateKey la lo 3) (overrideMarker r) groups)
  ∧ (r.timestamp = some (now - 31 * 60 * 1000) →
        processUserReport now groups r = groups) := by
  have hstep : processUserReport now groups r =
      (if r.isUserSubmission && overrideRecent r.timestamp now
       then mapSet (getCoordinateKey la lo 3) (overrideMarker r) groups
       else groups) := by
    unfold processUserReport
    rw [hv]
    simp [hocc]
  refine ⟨fun h1 h2 => ?_, fun h => ?_, fun t ht => ?_, rfl, fun ht hsub => ?_, fun ht => ?_⟩
  · rw [hstep, if_pos (by rw [h1, h2]; rfl)]
  · rw [hstep, if_neg]
    rcases h with h | h <;> simp [h]
  · simp [overrideRecent, ht]
  · rw [hstep, if_pos]
    simp only [overrideRecent, ht, hsub, Bool.true_and, decide_eq_true_eq]
    omega
  · rw [hstep, if_neg]
    simp only [overrideRecent, ht, Bool.and_eq_true, decide_eq_true_eq, not_and]
    intro _
    omega

/-- Witness for C2: an own report timestamped at processing time replaces the co-located
hazard marker in its slot. -/
theorem override_window_witness :
    processUserReport 0
      [(getCoordinateKey 13 80 3,
        hazardMarker
          { id := 0, centroid_lat := JSVal.num 13, centroid_lon := JSVal.num 80,
            confidence := none } 13 80)]
      { id := 1, lat := JSVal.num 13, lon := JSVal.num 80, isUserSubmission := true,
        confidence := none, timestamp := some 0 } =
    mapSet (getCoordinateKey 13 80 3)
      (overrideMarker
        { id := 1, lat := JSVal.num 13, lon := JSVal.num 80,
          isUserSubmission := true, confidence := none, timestamp := some 0 })
      [(getCoordinateKey 13 80 3,
        hazardMarker
          { id := 0, centroid_lat := JSVal.num 13, centroid_lon := JSVal.num 80,
            confidence := none } 13 80)] :=
  (override_window 0
    [(getCoordinateKey 13 80 3,
      hazardMarker
        { id := 0, centroid_lat := JSVal.num 13, centroid_lon := JSVal.num 80,
          confidence := none } 13 80)]
    { id := 1, lat := JSVal.num 13, lon := JSVal.num 80, isUserSubmission := true,
      confidence := none, timestamp := some 0 } 13 80 (by decide)
    (by simp [mapHas])).2.2.2.2.1 rfl rfl

/-! ### Stability of the descending sort -/

theorem filter_orderedInsert (p : ℕ) (a : UnifiedMarker) (l : List UnifiedMarker) :
    (List.orderedInsert markerGE a l).filter (fun m => m.priority == p) =
      if a.priority == p then a :: l.filter (fun m => m.priority == p)
      else l.filter (fun m => m.priority == p) := by
  induction l with
  | nil =>
      by_cases ha : a.priority = p <;> simp [List.orderedInsert, List.filter_cons, ha]
  | cons b t ih =>
      by_cases hr : markerGE a b
      · rw [List.orderedInsert, if_pos hr]
        by_cases ha : a.priority = p <;> simp [List.filter_cons, ha]
      · rw [List.orderedInsert, if_neg hr]
        by_cases ha : a.priority = p
        · have hb : ¬ b.priority = p := by
            unfold markerGE at hr
            omega
          simp [List.filter_cons, ha, hb, ih]
        · simp [List.filter_cons, ha, ih]

theorem filter_insertionSort (p : ℕ) (l : List UnifiedMarker) :
    (List.insertionSort markerGE l).filter (fun m => m.priority == p) =
      l.filter (fun m => m.priority == p) := by
  induction l with
  | nil => rfl
  | cons a t ih =>
      simp only [List.insertionSort]
      rw [filter_orderedInsert]
      by_cases ha : a.priority = p <;> simp [List.filter_cons, ha, ih]

theorem sorted_createUnified (es : List HazardEvent) (rs : List UserReport) (now : ℤ) :
    List.Sorted markerGE (createUnifiedMarkerData es rs now) :=
  List.Pairwise.sublist (List.take_sublist _ _) (List.sorted_insertionSort markerGE _)

theorem insertionSort_of_const_priority {l : List UnifiedMarker} {p : ℕ}
    (h : ∀ m ∈ l, m.priority = p) : List.insertionSort markerGE l = l := by
  have hperm := List.perm_insertionSort markerGE l
  have hall : ∀ m ∈ List.insertionSort markerGE l, (fun m : UnifiedMarker => m.priority == p) m = true := by
    intro m hm
    simp [h m (hperm.mem_iff.mp hm)]
  calc List.insertionSort markerGE l
      = (List.insertionSort markerGE l).filter (fun m => m.priority == p) :=
        (List.filter_eq_self.mpr hall).symm
    _ = l.filter (fun m => m.priority == p) := filter_insertionSort p l
    _ = l := List.filter_eq_self.mpr (by intro m hm; simp [h m hm])

/-! ### C6: ranking invariant and tie order -/

/-- C6 counterexample: with two hazard events and two recent own reports co-located with
them (reports given in the opposite cell order), both reports override and tie at
priority 9, but they appear in the hazard events' slot order `[id 4, id 3]`, not in the
reports' input order `[id 3, id 4]` — so equal-priority markers do not appear
"hazard-events-first then reports in input order". -/
theorem unified_tie_order_counterexample :
    (createUnifiedMarkerData
      [{ id := 1, centroid_lat := JSVal.num 13, centroid_lon := JSVal.num 80, confidence := none },
       { id := 2, centroid_lat := JSVal.num 14, centroid_lon := JSVal.num 80, confidence := none }]
      [{ id := 3, lat := JSVal.num 14, lon := JSVal.num 80, isUserSubmission := true, confidence := none, timestamp := some 0 },
       { id := 4, lat := JSVal.num 13, lon := JSVal.num 80, isUserSubmission := true, confidence := none, timestamp := some 0 }]
      0).map (fun m => (sourceId m.data, m.priority)) = [(4, 9), (3, 9)] ∧
    ([(4, 9), (3, 9)] : List (ℕ × ℕ)) ≠ [(3, 9), (4, 9)] :=
  ⟨by decide, by decide⟩

/-- C6 (amended): the output list is sorted by non-increasing priority, and the sort is
stable with respect to the grid map's value order — the order in which cells were first
occupied, in which an overriding report keeps the slot position of the marker it
replaced. (Absent overrides this order is hazard-events-first then reports in input
order, but an override inherits its hazard's earlier slot, as the counterexample shows.) -/
theorem unified_sorted_stable (es : List HazardEvent) (rs : List UserReport) (now : ℤ) :
    List.Sorted markerGE (createUnifiedMarkerData es rs now)
  ∧ ∀ p : ℕ,
      ((createUnifiedMarkerData es rs now).filter (fun m => m.priority == p)).Sublist
        (((unifiedGroups es rs now).map Prod.snd).filter (fun m => m.priority == p)) := by
  constructor
  · exact sorted_createUnified es rs now
  · intro p
    have h1 := List.Sublist.filter (fun m : UnifiedMarker => m.priority == p)
      (List.take_sublist 50 (List.insertionSort markerGE ((unifiedGroups es rs now).map Prod.snd)))
    rw [filter_insertionSort] at h1
    exact h1

/-! ### C9: failure semantics -/

/-- C9: `createUnifiedMarkerData` is total — it always returns a (possibly empty)
priority-ranked list; a record with malformed coordinates is skipped individually
(removing it from the input changes nothing); and a timestamp-parse failure is non-fatal,
suppressing only the override for that record (an occupied cell is left unchanged while
the unoccupied-cell insertion still happens). -/
theorem unification_failure_semantics :
    (∀ (es1 es2 : List HazardEvent) (rs : List UserReport) (now : ℤ) (e : HazardEvent),
       validateCoords e.centroid_lat e.centroid_lon = none →
       createUnifiedMarkerData (es1 ++ e :: es2) rs now =
         createUnifiedMarkerData (es1 ++ es2) rs now)
  ∧ (∀ (es : List HazardEvent) (rs1 rs2 : List UserReport) (now : ℤ) (r : UserReport),
       validateCoords r.lat r.lon = none →
       createUnifiedMarkerData es (rs1 ++ r :: rs2) now =
         createUnifiedMarkerData es (rs1 ++ rs2) now)
  ∧ (∀ (now : ℤ) (groups : GroupMap) (r : UserReport) (la lo : ℚ),
       r.timestamp = none → validateCoords r.lat r.lon = some (la, lo) →
       (mapHas (getCoordinateKey la lo 3) groups = true →
          processUserReport now groups r = groups)
       ∧ (mapHas (getCoordinateKey la lo 3) groups = false →
          processUserReport now groups r =
            mapSet (getCoordinateKey la lo 3) (reportMarker r la lo) groups))
  ∧ (∀ (es : List HazardEvent) (rs : List UserReport) (now : ℤ),
       List.Sorted markerGE (createUnifiedMarkerData es rs now)) := by
  refine ⟨fun es1 es2 rs now e hval => ?_, fun es rs1 rs2 now r hval => ?_,
    fun now groups r la lo hts hval => ⟨fun hocc => ?_, fun hfree => ?_⟩,
    fun es rs now => sorted_createUnified es rs now⟩
  · have hskip : ∀ acc : GroupMap, processHazardEvent acc e = acc := by
      intro acc
      simp [processHazardEvent, hval]
    simp [createUnifiedMarkerData, unifiedGroups, List.foldl_append, hskip]
  · have hskip : ∀ acc : GroupMap, processUserReport now acc r = acc := by
      intro acc
      simp [processUserReport, hval]
    simp [createUnifiedMarkerData, unifiedGroups, List.foldl_append, hskip]
  · simp [processUserReport, hval, hocc, overrideRecent, hts]
  · simp [processUserReport, hval, hfree]

/-- Witness for C9: a hazard event with null coordinates is skipped without affecting
the (empty) rest; a report with an unparseable timestamp in a free cell is still
inserted, and in an occupied cell is ignored. -/
theorem unification_failure_semantics_witness :
    createUnifiedMarkerData
      [{ id := 0, centroid_lat := JSVal.null, centroid_lon := JSVal.null, confidence := none }] [] 0 =
      createUnifiedMarkerData [] [] 0
  ∧ processUserReport 0 []
      { id := 2, lat := JSVal.num 13, lon := JSVal.num 80, isUserSubmission := true,
        confidence := none, timestamp := none } =
      mapSet (getCoordinateKey 13 80 3)
        (reportMarker
          { id := 2, lat := JSVal.num 13, lon := JSVal.num 80, isUserSubmission := true,
            confidence := none, timestamp := none } 13 80) [] :=
  ⟨unification_failure_semantics.1 [] [] [] 0
      { id := 0, centroid_lat := JSVal.null, centroid_lon := JSVal.null, confidence := none } rfl,
   (unification_failure_semantics.2.2.1 0 []
      { id := 2, lat := JSVal.num 13, lon := JSVal.num 80, isUserSubmission := true,
        confidence := none, timestamp := none } 13 80 rfl (by decide)).2 rfl⟩

/-! ### C1: the deduplication invariant -/

theorem markerKey_hazardMarker (e : HazardEvent) (la lo : ℚ) :
    markerKey (hazardMarker e la lo) = getCoordinateKey la lo 3 := rfl

theorem markerKey_reportMarker (r : UserReport) (la lo : ℚ) :
    markerKey (reportMarker r la lo) = getCoordinateKey la lo 3 := rfl

theorem markerKey_overrideMarker {r : UserReport} {la lo : ℚ}
    (h : validateCoords r.lat r.lon = some (la, lo)) :
    markerKey (overrideMarker r) = getCoordinateKey la lo 3 := by
  obtain ⟨h1, h2⟩ := validateCoords_parse h
  simp [markerKey, overrideMarker, h1, h2]

theorem processHazardEvent_invalid {l : GroupMap} {e : HazardEvent}
    (h : validateCoords e.centroid_lat e.centroid_lon = none) :
    processHazardEvent l e = l := by
  simp [processHazardEvent, h]

theorem processHazardEvent_occupied {l : GroupMap} {e : HazardEvent} {la lo : ℚ}
    (h : validateCoords e.centroid_lat e.centroid_lon = some (la, lo))
    (hocc : mapHas (getCoordinateKey la lo 3) l = true) :
    processHazardEvent l e = l := by
  simp [processHazardEvent, h, hocc]

theorem processHazardEvent_insert {l : GroupMap} {e : HazardEvent} {la lo : ℚ}
    (h : validateCoords e.centroid_lat e.centroid_lon = some (la, lo))
    (hocc : mapHas (getCoordinateKey la lo 3) l = false) :
    processHazardEvent l e =
      mapSet (getCoordinateKey la lo 3) (hazardMarker e la lo) l := by
  simp [processHazardEvent, h, hocc]

theorem processUserReport_invalid {l : GroupMap} {r : UserReport} {now : ℤ}
    (h : validateCoords r.lat r.lon = none) :
    processUserReport now l r = l := by
  simp [processUserReport, h]

theorem processUserReport_insert {l : GroupMap} {r : UserReport} {now : ℤ} {la lo : ℚ}
    (h : validateCoords r.lat r.lon = some (la, lo))
    (hfree : mapHas (getCoordinateKey la lo 3) l = false) :
    processUserReport now l r =
      mapSet (getCoordinateKey la lo 3) (reportMarker r la lo) l := by
  simp [processUserReport, h, hfree]

theorem processUserReport_override {l : GroupMap} {r : UserReport} {now : ℤ} {la lo : ℚ}
    (h : validateCoords r.lat r.lon = some (la, lo))
    (hocc : mapHas (getCoordinateKey la lo 3) l = true)
    (hov : (r.isUserSubmission && overrideRecent r.timestamp now) = true) :
    processUserReport now l r =
      mapSet (getCoordinateKey la lo 3) (overrideMarker r) l := by
  simp [processUserReport, h, hocc, hov]

theorem processUserReport_keep {l : GroupMap} {r : UserReport} {now : ℤ} {la lo : ℚ}
    (h : validateCoords r.lat r.lon = some (la, lo))
    (hocc : mapHas (getCoordinateKey la lo 3) l = true)
    (hov : (r.isUserSubmission && overrideRecent r.timestamp now) = false) :
    processUserReport now l r = l := by
  simp [processUserReport, h, hocc, hov]

theorem inv_processHazardEvent {l : GroupMap}
    (h1 : (l.map Prod.fst).Nodup) (h2 : ∀ q ∈ l, markerKey q.2 = q.1) (e : HazardEvent) :
    ((processHazardEvent l e).map Prod.fst).Nodup ∧
      ∀ q ∈ processHazardEvent l e, markerKey q.2 = q.1 := by
  cases hv : validateCoords e.centroid_lat e.centroid_lon with
  | none =>
      rw [processHazardEvent_invalid hv]
      exact ⟨h1, h2⟩
  | some p =>
      cases p with
      | mk la lo =>
          cases hocc : mapHas (getCoordinateKey la lo 3) l with
          | true =>
              rw [processHazardEvent_occupied hv hocc]
              exact ⟨h1, h2⟩
          | false =>
              rw [processHazardEvent_insert hv hocc, mapSet_of_not_has hocc]
              constructor
              · rw [List.map_append, List.nodup_append]
                refine ⟨h1, by simp, ?_⟩
                intro k hk hk'
                simp at hk'
                rcases List.mem_map.mp hk with ⟨q, hq, hq'⟩
                exact (mapHas_false_iff.mp hocc q hq) (by rw [hq', hk'])
              · intro q hq
                rcases List.mem_append.mp hq with hq1 | hq1
                · exact h2 q hq1
                · simp at hq1
                  rw [hq1]
                  exact markerKey_hazardMarker e la lo

theorem inv_processUserReport {l : GroupMap} (now : ℤ)
    (h1 : (l.map Prod.fst).Nodup) (h2 : ∀ q ∈ l, markerKey q.2 = q.1) (r : UserReport) :
    ((processUserReport now l r).map Prod.fst).Nodup ∧
      ∀ q ∈ processUserReport now l r, markerKey q.2 = q.1 := by
  cases hv : validateCoords r.lat r.lon with
  | none =>
      rw [processUserReport_invalid hv]
      exact ⟨h1, h2⟩
  | some p =>
      cases p with
      | mk la lo =>
          cases hocc : mapHas (getCoordinateKey la lo 3) l with
          | false =>
              rw [processUserReport_insert hv hocc, mapSet_of_not_has hocc]
              constructor
              · rw [List.map_append, List.nodup_append]
                refine ⟨h1, by simp, ?_⟩
                intro k hk hk'
                simp at hk'
                rcases List.mem_map.mp hk with ⟨q, hq, hq'⟩
                exact (mapHas_false_iff.mp hocc q hq) (by rw [hq', hk'])
              · intro q hq
                rcases List.mem_append.mp hq with hq1 | hq1
                · exact h2 q hq1
                · simp at hq1
                  rw [hq1]
                  exact markerKey_reportMarker r la lo
          | true =>
              cases hov : r.isUserSubmission && overrideRecent r.timestamp now with
              | false =>
                  rw [processUserReport_keep hv hocc hov]
                  exact ⟨h1, h2⟩
              | true =>
                  rw [processUserReport_override hv hocc hov]
                  constructor
                  · rw [keys_mapSet_of_has hocc]
                    exact h1
                  · intro q hq
                    rcases mem_mapSet hq with hq1 | hq1
                    · rw [hq1]
                      exact markerKey_overrideMarker hv
                    · exact h2 q hq1

theorem inv_unifiedGroups (es : List HazardEvent) (rs : List UserReport) (now : ℤ) :
    ((unifiedGroups es rs now).map Prod.fst).Nodup ∧
      ∀ q ∈ unifiedGroups es rs now, markerKey q.2 = q.1 := by
  have hh : ∀ (es' : List HazardEvent) (l : GroupMap),
      (l.map Prod.fst).Nodup → (∀ q ∈ l, markerKey q.2 = q.1) →
      ((es'.foldl processHazardEvent l).map Prod.fst).Nodup ∧
        ∀ q ∈ es'.foldl processHazardEvent l, markerKey q.2 = q.1 := by
    intro es'
    induction es' with
    | nil => exact fun l h1 h2 => ⟨h1, h2⟩
    | cons e t ih =>
        intro l h1 h2
        obtain ⟨h1', h2'⟩ := inv_processHazardEvent h1 h2 e
        exact ih _ h1' h2'
  have hr : ∀ (rs' : List UserReport) (l : GroupMap),
      (l.map Prod.fst).Nodup → (∀ q ∈ l, markerKey q.2 = q.1) →
      ((rs'.foldl (processUserReport now) l).map Prod.fst).Nodup ∧
        ∀ q ∈ rs'.foldl (processUserReport now) l, markerKey q.2 = q.1 := by
    intro rs'
    induction rs' with
    | nil => exact fun l h1 h2 => ⟨h1, h2⟩
    | cons r t ih =>
        intro l h1 h2
        obtain ⟨h1', h2'⟩ := inv_processUserReport now h1 h2 r
        exact ih _ h1' h2'
  obtain ⟨h1, h2⟩ := hh es [] (by simp) (by simp)
  exact hr rs _ h1 h2

/-- C1: for every pair of input lists, the unified marker list contains at most one
marker per grid cell — no two markers in the output have equal grid keys at the
configured 3-decimal precision. -/
theorem unified_dedup (es : List HazardEvent) (rs : List UserReport) (now : ℤ) :
    (createUnifiedMarkerData es rs now).Pairwise
      (fun a b => markerKey a ≠ markerKey b) := by
  obtain ⟨hnd, hkey⟩ := inv_unifiedGroups es rs now
  have h1 : (unifiedGroups es rs now).Pairwise (fun p q => p.1 ≠ q.1) :=
    List.pairwise_map.mp hnd
  have h2 : (unifiedGroups es rs now).Pairwise
      (fun p q => markerKey p.2 ≠ markerKey q.2) :=
    h1.imp_of_mem (fun hp hq hne => by rw [hkey _ hp, hkey _ hq]; exact hne)
  have hvals : ((unifiedGroups es rs now).map Prod.snd).Pairwise
      (fun a b => markerKey a ≠ markerKey b) := List.pairwise_map.mpr h2
  have hsort : (List.insertionSort markerGE
      ((unifiedGroups es rs now).map Prod.snd)).Pairwise
      (fun a b => markerKey a ≠ markerKey b) :=
    ((List.perm_insertionSort markerGE _).pairwise_iff (fun h => Ne.symm h)).mpr hvals
  exact List.Pairwise.sublist (List.take_sublist _ _) hsort

/-! ### Membership invariants of the output list -/

theorem memP_processHazardEvent {P : UnifiedMarker → Prop} {l : GroupMap}
    (hhaz : ∀ (e : HazardEvent) (la lo : ℚ), P (hazardMarker e la lo))
    (hl : ∀ q ∈ l, P q.2) (e : HazardEvent) :
    ∀ q ∈ processHazardEvent l e, P q.2 := by
  cases hv : validateCoords e.centroid_lat e.centroid_lon with
  | none =>
      rw [processHazardEvent_invalid hv]
      exact hl
  | some p =>
      cases p with
      | mk la lo =>
          cases hocc : mapHas (getCoordinateKey la lo 3) l with
          | true =>
              rw [processHazardEvent_occupied hv hocc]
              exact hl
          | false =>
              rw [processHazardEvent_insert hv hocc, mapSet_of_not_has hocc]
              intro q hq
              rcases List.mem_append.mp hq with hq1 | hq1
              · exact hl q hq1
              · simp at hq1
                rw [hq1]
                exact hhaz e la lo

theorem memP_processUserReport {P : UnifiedMarker → Prop} {l : GroupMap} (now : ℤ)
    (hrep : ∀ (r : UserReport) (la lo : ℚ), P (reportMarker r la lo))
    (hov : ∀ r : UserReport, P (overrideMarker r))
    (hl : ∀ q ∈ l, P q.2) (r : UserReport) :
    ∀ q ∈ processUserReport now l r, P q.2 := by
  cases hv : validateCoords r.lat r.lon with
  | none =>
      rw [processUserReport_invalid hv]
      exact hl
  | some p =>
      cases p with
      | mk la lo =>
          cases hocc : mapHas (getCoordinateKey la lo 3) l with
          | false =>
              rw [processUserReport_insert hv hocc, mapSet_of_not_has hocc]
              intro q hq
              rcases List.mem_append.mp hq with hq1 | hq1
              · exact hl q hq1
              · simp at hq1
                rw [hq1]
                exact hrep r la lo
          | true =>
              cases ho : r.isUserSubmission && overrideRecent r.timestamp now with
              | false =>
                  rw [processUserReport_keep hv hocc ho]
                  exact hl
              | true =>
                  rw [processUserReport_override hv hocc ho]
                  intro q hq
                  rcases mem_mapSet hq with hq1 | hq1
                  · rw [hq1]
                    exact hov r
                  · exact hl q hq1

theorem memP_createUnified {P : UnifiedMarker → Prop}
    (hhaz : ∀ (e : HazardEvent) (la lo : ℚ), P (hazardMarker e la lo))
    (hrep : ∀ (r : UserReport) (la lo : ℚ), P (reportMarker r la lo))
    (hov : ∀ r : UserReport, P (overrideMarker r))
    (es : List HazardEvent) (rs : List UserReport) (now : ℤ) {m : UnifiedMarker}
    (hm : m ∈ createUnifiedMarkerData es rs now) : P m := by
  have hgroups : ∀ q ∈ unifiedGroups es rs now, P q.2 := by
    have hh : ∀ (es' : List HazardEvent) (l : GroupMap), (∀ q ∈ l, P q.2) →
        ∀ q ∈ es'.foldl processHazardEvent l, P q.2 := by
      intro es'
      induction es' with
      | nil => exact fun l hl => hl
      | cons e t ih => exact fun l hl => ih _ (memP_processHazardEvent hhaz hl e)
    have hr : ∀ (rs' : List UserReport) (l : GroupMap), (∀ q ∈ l, P q.2) →
        ∀ q ∈ rs'.foldl (processUserReport now) l, P q.2 := by
      intro rs'
      induction rs' with
      | nil => exact fun l hl => hl
      | cons r t ih => exact fun l hl => ih _ (memP_processUserReport now hrep hov hl r)
    exact hr rs _ (hh es [] (by simp))
  have hsortmem : m ∈ List.insertionSort markerGE
      ((unifiedGroups es rs now).map Prod.snd) := List.mem_of_mem_take hm
  have hvalmem : m ∈ (unifiedGroups es rs now).map Prod.snd :=
    (List.perm_insertionSort markerGE _).mem_iff.mp hsortmem
  rcases List.mem_map.mp hvalmem with ⟨q, hq, hq'⟩
  rw [← hq']
  exact hgroups q hq

/-! ### C4: confidence defaulting follows JS logical OR, not nullish coalescing -/

/-- The confidence field of the record behind a marker. -/
def sourceConfidence : SourceData → Option ℚ
  | SourceData.hazard e => e.confidence
  | SourceData.report r => r.confidence

/-- The per-source default confidence: 0.5 for a hazard event, 0.3 for a user report. -/
def defaultConfidence : SourceData → ℚ
  | SourceData.hazard _ => 0.5
  | SourceData.report _ => 0.3

/-- C4 counterexample: a hazard event carrying `confidence = 0` yields a marker with
confidence 0.5, not 0 — the source uses `||`, so a present-but-zero confidence falls
back to the default, contradicting the claimed `??` semantics. -/
theorem confidence_zero_counterexample :
    (createUnifiedMarkerData
        [{ id := 0, centroid_lat := JSVal.num 13, centroid_lon := JSVal.num 80,
           confidence := some 0 }] [] 0).map (fun m => m.confidence) = [(0.5 : ℚ)]
  ∧ (0.5 : ℚ) ≠ 0 := by
  constructor
  · rfl
  · norm_num

/-- C4 (amended): a unified marker's confidence equals its source record's confidence
whenever that field is present and nonzero; when the field is null/undefined or exactly
0 (both falsy under the source's `||`), it falls back to the default (0.5 for a hazard
event, 0.3 for a user report). -/
theorem confidence_or_fallback (es : List HazardEvent) (rs : List UserReport) (now : ℤ)
    (m : UnifiedMarker) (hm : m ∈ createUnifiedMarkerData es rs now) :
    m.confidence = jsOr (sourceConfidence m.data) (defaultConfidence m.data)
  ∧ (∀ c : ℚ, sourceConfidence m.data = some c → c ≠ 0 → m.confidence = c)
  ∧ ((sourceConfidence m.data = none ∨ sourceConfidence m.data = some 0) →
      m.confidence = defaultConfidence m.data) := by
  have h : m.confidence = jsOr (sourceConfidence m.data) (defaultConfidence m.data) :=
    memP_createUnified
      (P := fun m => m.confidence = jsOr (sourceConfidence m.data) (defaultConfidence m.data))
      (fun e la lo => rfl) (fun r la lo => rfl) (fun r => rfl) es rs now hm
  refine ⟨h, fun c hc hc0 => ?_, fun hc => ?_⟩
  · rw [h, hc]
    simp [jsOr, hc0]
  · rcases hc with hc | hc <;> rw [h, hc] <;> simp [jsOr]

/-- Witness for C4 (amended): the marker of a hazard event with no confidence field
gets `jsOr none 0.5`, the fallback. -/
theorem confidence_or_fallback_witness :
    (hazardMarker
      { id := 0, centroid_lat := JSVal.num 13, centroid_lon := JSVal.num 80,
        confidence := none } 13 80).confidence =
      jsOr
        (sourceConfidence (hazardMarker
          { id := 0, centroid_lat := JSVal.num 13, centroid_lon := JSVal.num 80,
            confidence := none } 13 80).data)
        (defaultConfidence (hazardMarker
          { id := 0, centroid_lat := JSVal.num 13, centroid_lon := JSVal.num 80,
            confidence := none } 13 80).data) := by
  have hstep : createUnifiedMarkerData
      [{ id := 0, centroid_lat := JSVal.num 13, centroid_lon := JSVal.num 80,
         confidence := none }] [] 0 =
      [hazardMarker
        { id := 0, centroid_lat := JSVal.num 13, centroid_lon := JSVal.num 80,
          confidence := none } 13 80] := rfl
  exact (confidence_or_fallback _ _ 0 _
    (by rw [hstep]; exact List.mem_singleton.mpr rfl)).1

/-! ### C10: the override branch stores raw coordinates -/

/-- C10: every marker produced by a non-override insertion path (priority ≠ 9) stores
parsed numbers in its `lat`/`lon` slots, while the override branch copies the raw
`report.lat`/`report.lon`: for a report whose coordinates arrive as numeric strings,
the overriding output marker's coordinates are those strings. -/
theorem override_raw_coordinates :
    (∀ (es : List HazardEvent) (rs : List UserReport) (now : ℤ) (m : UnifiedMarker),
        m ∈ createUnifiedMarkerData es rs now → m.priority ≠ 9 →
        (∃ q1 : ℚ, m.lat = JSVal.num q1) ∧ (∃ q2 : ℚ, m.lon = JSVal.num q2))
  ∧ (createUnifiedMarkerData
        [{ id := 7, centroid_lat := JSVal.num 13, centroid_lon := JSVal.num 80,
           confidence := none }]
        [{ id := 8, lat := JSVal.numStr 13, lon := JSVal.numStr 80,
           isUserSubmission := true, confidence := none, timestamp := some 0 }] 0).map
        (fun m => (m.lat, m.lon)) = [(JSVal.numStr 13, JSVal.numStr 80)] := by
  constructor
  · intro es rs now m hm h9
    have h := memP_createUnified
      (P := fun m => m.priority = 9 ∨
        ((∃ q1 : ℚ, m.lat = JSVal.num q1) ∧ (∃ q2 : ℚ, m.lon = JSVal.num q2)))
      (fun e la lo => Or.inr ⟨⟨la, rfl⟩, ⟨lo, rfl⟩⟩)
      (fun r la lo => Or.inr ⟨⟨la, rfl⟩, ⟨lo, rfl⟩⟩)
      (fun r => Or.inl rfl) es rs now hm
    exact h.resolve_left h9
  · decide

/-- Witness for C10: a priority-10 hazard marker in the output stores parsed numbers. -/
theorem override_raw_coordinates_witness :
    (∃ q1 : ℚ, (hazardMarker
      { id := 9, centroid_lat := JSVal.num 13, centroid_lon := JSVal.num 80,
        confidence := none } 13 80).lat = JSVal.num q1)
  ∧ (∃ q2 : ℚ, (hazardMarker
      { id := 9, centroid_lat := JSVal.num 13, centroid_lon := JSVal.num 80,
        confidence := none } 13 80).lon = JSVal.num q2) := by
  have hstep : createUnifiedMarkerData
      [{ id := 9, centroid_lat := JSVal.num 13, centroid_lon := JSVal.num 80,
         confidence := none }] [] 0 =
      [hazardMarker
        { id := 9, centroid_lat := JSVal.num 13, centroid_lon := JSVal.num 80,
          confidence := none } 13 80] := rfl
  exact override_raw_coordinates.1 _ _ 0 _
    (by rw [hstep]; exact List.mem_singleton.mpr rfl) (by decide)

/-! ### C3: the cap keeps the first fifty, not the last fifty -/

/-- The grid key a valid hazard event occupies (dummy key for invalid events;
proof helper for reasoning about runs of distinct valid events). -/
def eventKey (e : HazardEvent) : String :=
  match validateCoords e.centroid_lat e.centroid_lon with
  | some (la, lo) => getCoordinateKey la lo 3
  | none => ""

/-- The priority-10 marker a valid hazard event inserts (dummy coordinates for
invalid events; proof helper). -/
def eventMarker (e : HazardEvent) : UnifiedMarker :=
  match validateCoords e.centroid_lat e.centroid_lon with
  | some (la, lo) => hazardMarker e la lo
  | none => hazardMarker e 0 0

theorem foldl_hazard_all_valid :
    ∀ (es : List HazardEvent) (acc : GroupMap),
      (∀ e ∈ es, (validateCoords e.centroid_lat e.centroid_lon).isSome) →
      es.Pairwise (fun a b => eventKey a ≠ eventKey b) →
      (∀ e ∈ es, mapHas (eventKey e) acc = false) →
      es.foldl processHazardEvent acc =
        acc ++ es.map (fun e => (eventKey e, eventMarker e)) := by
  intro es
  induction es with
  | nil =>
      intro acc _ _ _
      simp
  | cons e t ih =>
      intro acc hval hdist hfree
      obtain ⟨p, hv⟩ := Option.isSome_iff_exists.mp (hval e (List.mem_cons_self e t))
      obtain ⟨la, lo⟩ := p
      have hek : eventKey e = getCoordinateKey la lo 3 := by
        simp [eventKey, hv]
      have hem : eventMarker e = hazardMarker e la lo := by
        simp [eventMarker, hv]
      have hocc : mapHas (getCoordinateKey la lo 3) acc = false := by
        rw [← hek]
        exact hfree e (List.mem_cons_self e t)
      have hstep : processHazardEvent acc e =
          acc ++ [(eventKey e, eventMarker e)] := by
        rw [processHazardEvent_insert hv hocc, mapSet_of_not_has hocc, hek, hem]
      rw [List.foldl_cons, hstep,
        ih (acc ++ [(eventKey e, eventMarker e)])
          (fun e' he' => hval e' (List.mem_cons_of_mem e he'))
          (List.Pairwise.of_cons hdist)
          ?_]
      · rw [List.map_cons, List.append_assoc]
        rfl
      · intro e' he'
        have hne : eventKey e ≠ eventKey e' :=
          (List.pairwise_cons.mp hdist).1 e' he'
        rw [mapHas_false_iff]
        intro q hq
        rcases List.mem_append.mp hq with hq1 | hq1
        · exact mapHas_false_iff.mp (hfree e' (List.mem_cons_of_mem e he')) q hq1
        · rw [List.mem_singleton] at hq1
          subst hq1
          exact hne

/-- The 60 valid, spatially distinct hazard events of the cap scenario: event `i`
(0 ≤ i < 60) sits at latitude `i + 1`, longitude 80. -/
def events60 : List HazardEvent :=
  (List.range 60).map (fun i =>
    { id := i, centroid_lat := JSVal.num ((i + 1 : ℕ) : ℚ),
      centroid_lon := JSVal.num 80, confidence := none })

/-- C3 counterexample: for 60 valid, spatially distinct hazard events, the output has
length 50 but retains the FIRST 50 in input order (ids 0–49): the stable sort preserves
insertion order among the all-tied priority-10 markers and `slice(0, 50)` keeps the
head, so the retained markers are not "the most recently inserted ones (the last 50 in
input order)" (which would be ids 10–59). -/
theorem cap_counterexample :
    (createUnifiedMarkerData events60 [] 0).map (fun m => sourceId m.data) = List.range 50
  ∧ (createUnifiedMarkerData events60 [] 0).length = 50
  ∧ List.range 50 ≠ (List.range 50).map (fun i => i + 10) :=
  ⟨by decide, by decide, by decide⟩

/-- C3 (amended): given 60 valid, spatially distinct hazard events (and no user
reports), the unified output has length exactly 50 and the retained markers are the
first 50 in input order (the earliest inserted): all tie at priority 10, the stable
sort preserves insertion order, and the cap keeps the head of the sorted list. -/
theorem cap_keeps_first_fifty (es : List HazardEvent) (now : ℤ)
    (hlen : es.length = 60)
    (hval : ∀ e ∈ es, (validateCoords e.centroid_lat e.centroid_lon).isSome)
    (hdist : es.Pairwise (fun a b => eventKey a ≠ eventKey b)) :
    createUnifiedMarkerData es [] now = (es.map eventMarker).take 50
  ∧ (createUnifiedMarkerData es [] now).length = 50 := by
  have hgroups : unifiedGroups es [] now =
      es.map (fun e => (eventKey e, eventMarker e)) := by
    unfold unifiedGroups
    rw [List.foldl_nil,
      foldl_hazard_all_valid es [] hval hdist (fun e _ => by simp [mapHas])]
    rfl
  have hvals : (unifiedGroups es [] now).map Prod.snd = es.map eventMarker := by
    rw [hgroups, List.map_map]
    rfl
  have hprio : ∀ m ∈ es.map eventMarker, m.priority = 10 := by
    intro m hm
    rcases List.mem_map.mp hm with ⟨e, _, rfl⟩
    unfold eventMarker
    cases validateCoords e.centroid_lat e.centroid_lon with
    | none => rfl
    | some p =>
        cases p with
        | mk la lo => rfl
  constructor
  · unfold createUnifiedMarkerData
    rw [hvals, insertionSort_of_const_priority hprio]
  · unfold createUnifiedMarkerData
    rw [hvals, insertionSort_of_const_priority hprio, List.length_take,
      List.length_map, hlen]
    decide

/-- Witness for C3 (amended): applying the theorem to the concrete 60-event scenario. -/
theorem cap_keeps_first_fifty_witness :
    createUnifiedMarkerData events60 [] 0 = (events60.map eventMarker).take 50
  ∧ (createUnifiedMarkerData events60 [] 0).length = 50 :=
  cap_keeps_first_fifty events60 0 (by decide) (by decide) (by decide)

/-! ### C7: key equality versus rounding equality -/

theorem digitChar_ne_underscore (d : ℕ) : digitChar d ≠ '_' := by
  unfold digitChar
  split <;> decide

theorem natToDigitsAux_no_underscore {c : Char} :
    ∀ fuel n : ℕ, c ∈ natToDigitsAux fuel n → c ≠ '_' := by
  intro fuel
  induction fuel with
  | zero =>
      intro n h
      simp [natToDigitsAux] at h
  | succ f ih =>
      intro n h
      unfold natToDigitsAux at h
      split at h
      · simp at h
      · rcases List.mem_append.mp h with h1 | h1
        · exact ih _ h1
        · rw [List.mem_singleton] at h1
          rw [h1]
          exact digitChar_ne_underscore _

theorem natToDigits_no_underscore {c : Char} {n : ℕ}
    (h : c ∈ (natToDigits n).data) : c ≠ '_' := by
  unfold natToDigits at h
  split at h
  · rw [show ("0" : String).data = ['0'] from rfl, List.mem_singleton] at h
    rw [h]
    decide
  · exact natToDigitsAux_no_underscore _ _ h

theorem padLeft_mem {c : Char} {s : String} {w : ℕ} (h : c ∈ (padLeft s w).data) :
    c = '0' ∨ c ∈ s.data := by
  unfold padLeft at h
  rw [String.data_append] at h
  rcases List.mem_append.mp h with h1 | h1
  · exact Or.inl (List.eq_of_mem_replicate h1)
  · exact Or.inr h1

theorem jsToFixedDigits_no_underscore {c : Char} {s p : ℕ}
    (h : c ∈ (jsToFixedDigits s p).data) : c ≠ '_' := by
  unfold jsToFixedDigits at h
  split at h
  · exact natToDigits_no_underscore h
  · rw [String.data_append, String.data_append] at h
    rcases List.mem_append.mp h with h1 | h1
    · rcases List.mem_append.mp h1 with h2 | h2
      · exact natToDigits_no_underscore h2
      · rw [show ("." : String).data = ['.'] from rfl, List.mem_singleton] at h2
        rw [h2]
        decide
    · rcases padLeft_mem h1 with h2 | h2
      · rw [h2]
        decide
      · exact natToDigits_no_underscore h2

theorem jsToFixed_no_underscore {c : Char} {x : ℚ} {p : ℕ}
    (h : c ∈ (jsToFixed x p).data) : c ≠ '_' := by
  unfold jsToFixed at h
  rw [String.data_append] at h
  rcases List.mem_append.mp h with h1 | h1
  · split at h1
    · rw [show ("-" : String).data = ['-'] from rfl, List.mem_singleton] at h1
      rw [h1]
      decide
    · rw [show ("" : String).data = [] from rfl] at h1
      simp at h1
  · exact jsToFixedDigits_no_underscore h1

theorem append_sep_inj {x : Char} (a : List Char) :
    ∀ {c b d : List Char}, x ∉ a → x ∉ c →
      (a ++ x :: b = c ++ x :: d ↔ a = c ∧ b = d) := by
  induction a with
  | nil =>
      intro c b d _ hc
      cases c with
      | nil => simp
      | cons g c' =>
          simp only [List.nil_append, List.cons_append]
          constructor
          · intro h
            injection h with h1 h2
            subst h1
            exact absurd (List.mem_cons_self x c') hc
          · rintro ⟨h, _⟩
            exact absurd h (by simp)
  | cons f a' ih =>
      intro c b d ha hc
      cases c with
      | nil =>
          simp only [List.cons_append, List.nil_append]
          constructor
          · intro h
            injection h with h1 h2
            subst h1
            exact absurd (List.mem_cons_self f a') ha
          · rintro ⟨h, _⟩
            exact absurd h (by simp)
      | cons g c' =>
          simp only [List.cons_append]
          constructor
          · intro h
            injection h with h1 h2
            have hrec := (ih (fun hx => ha (List.mem_cons_of_mem f hx))
              (fun hx => hc (List.mem_cons_of_mem g hx))).mp h2
            exact ⟨by rw [h1, hrec.1], hrec.2⟩
          · rintro ⟨h, h2⟩
            injection h with h1 h3
            rw [h1, h3, h2]

/-- C7 counterexample: the latitudes `1/10000` and `-1/10000` both round to the same
value (0) at the default 3-decimal precision, and the longitudes coincide, yet
`getCoordinateKey` renders `"0.000_..."` versus `"-0.000_..."` — different keys. So key
equality does not hold exactly when both coordinates round to the same value. -/
theorem key_rounding_counterexample :
    ((⟨1, 10000, by decide, Nat.coprime_one_left 10000⟩ : ℚ) = 1 / 10000)
  ∧ roundedAt 3 (⟨1, 10000, by decide, Nat.coprime_one_left 10000⟩ : ℚ) =
      roundedAt 3 (-(⟨1, 10000, by decide, Nat.coprime_one_left 10000⟩ : ℚ))
  ∧ getCoordinateKey (⟨1, 10000, by decide, Nat.coprime_one_left 10000⟩ : ℚ) 80 3 ≠
      getCoordinateKey (-(⟨1, 10000, by decide, Nat.coprime_one_left 10000⟩ : ℚ)) 80 3 := by
  refine ⟨?_, by decide, by decide⟩
  rw [Rat.mk'_eq_divInt, Rat.divInt_eq_div]
  norm_num

/-- C7 (amended): `getCoordinateKey` produces identical key strings exactly when the
signed fixed-decimal renderings (`toFixed`) of the two latitudes and of the two
longitudes agree — i.e. when the coordinates round to the same value at the configured
precision AND carry the same rendered sign; a negative coordinate rounding to zero
renders `"-0.000"`, distinct from `"0.000"`. Key equality, so refined, is the sole
deduplication criterion. -/
theorem getCoordinateKey_eq_iff (la1 lo1 la2 lo2 : ℚ) (p : ℕ) :
    getCoordinateKey la1 lo1 p = getCoordinateKey la2 lo2 p ↔
      (jsToFixed la1 p = jsToFixed la2 p ∧ jsToFixed lo1 p = jsToFixed lo2 p) := by
  unfold getCoordinateKey
  rw [String.ext_iff, String.data_append, String.data_append,
    String.data_append, String.data_append,
    show ("_" : String).data = ['_'] from rfl,
    List.append_assoc, List.append_assoc,
    List.singleton_append, List.singleton_append,
    append_sep_inj _ (fun hx => jsToFixed_no_underscore hx rfl)
      (fun hx => jsToFixed_no_underscore hx rfl),
    ← String.ext_iff, ← String.ext_iff]

/-! ### C8: the radius filter -/

/-- C8: `pinsWithin` returns exactly the subset of markers whose (externally computed,
great-circle) distance to the center is at most the radius — with the source's
truthiness guard on the stored coordinates; with center (13.0827, 80.2707) and radius
15000 m, a marker at the very center coordinates is included (its distance is 0), and
any marker whose computed distance is 20000 m is excluded. The geodesic distance is the
external map library's `distanceTo` and enters as the parameter `dist`. -/
theorem pinsWithin_radius_correct (dist : ℚ → ℚ → ℚ → ℚ → ℚ)
    (markers : List UnifiedMarker)
    (hzero : dist 13.0827 80.2707 13.0827 80.2707 = 0) :
    (∀ m : UnifiedMarker, m ∈ pinsWithin dist 13.0827 80.2707 15000 markers ↔
        m ∈ markers ∧ jsTruthy m.lat = true ∧ jsTruthy m.lon = true ∧
        dist 13.0827 80.2707 (jsToNumber m.lat) (jsToNumber m.lon) ≤ 15000)
  ∧ (∀ m ∈ markers, m.lat = JSVal.num 13.0827 → m.lon = JSVal.num 80.2707 →
        m ∈ pinsWithin dist 13.0827 80.2707 15000 markers)
  ∧ (∀ m ∈ markers,
        dist 13.0827 80.2707 (jsToNumber m.lat) (jsToNumber m.lon) = 20000 →
        m ∉ pinsWithin dist 13.0827 80.2707 15000 markers) := by
  have hchar : ∀ m : UnifiedMarker, m ∈ pinsWithin dist 13.0827 80.2707 15000 markers ↔
      m ∈ markers ∧ jsTruthy m.lat = true ∧ jsTruthy m.lon = true ∧
      dist 13.0827 80.2707 (jsToNumber m.lat) (jsToNumber m.lon) ≤ 15000 := by
    intro m
    unfold pinsWithin
    rw [List.mem_filter]
    simp [and_assoc]
  refine ⟨hchar, fun m hm hla hlo => ?_, fun m hm hd hmem => ?_⟩
  · rw [hchar]
    refine ⟨hm, ?_, ?_, ?_⟩
    · rw [hla]
      simp only [jsTruthy, decide_eq_true_eq]
      norm_num
    · rw [hlo]
      simp only [jsTruthy, decide_eq_true_eq]
      norm_num
    · rw [hla, hlo]
      show dist 13.0827 80.2707 13.0827 80.2707 ≤ 15000
      rw [hzero]
      norm_num
  · have h := ((hchar m).mp hmem).2.2.2
    rw [hd] at h
    norm_num at h

/-- Witness for C8: with a distance oracle that reports 0, the marker sitting at the
center coordinates passes the filter. -/
theorem pinsWithin_radius_correct_witness :
    (⟨"hazard_event", JSVal.num 13.0827, JSVal.num 80.2707,
      SourceData.hazard ⟨0, JSVal.num 13.0827, JSVal.num 80.2707, none⟩, 10, 1⟩ :
        UnifiedMarker) ∈
      pinsWithin (fun _ _ _ _ => 0) 13.0827 80.2707 15000
        [⟨"hazard_event", JSVal.num 13.0827, JSVal.num 80.2707,
          SourceData.hazard ⟨0, JSVal.num 13.0827, JSVal.num 80.2707, none⟩, 10, 1⟩] :=
  (pinsWithin_radius_correct (fun _ _ _ _ => 0)
    [⟨"hazard_event", JSVal.num 13.0827, JSVal.num 80.2707,
      SourceData.hazard ⟨0, JSVal.num 13.0827, JSVal.num 80.2707, none⟩, 10, 1⟩]
    rfl).2.1
    ⟨"hazard_event", JSVal.num 13.0827, JSVal.num 80.2707,
      SourceData.hazard ⟨0, JSVal.num 13.0827, JSVal.num 80.2707, none⟩, 10, 1⟩
    (List.mem_singleton.mpr rfl) rfl rfl
